import Mathlib

/-!
Shallow embedding of the trezoa-record-service record-lifecycle core.

The embedded source files are:
  src/program/src/instructions/delete_record.rs
  src/program/src/instructions/freeze_record.rs
  src/program/src/instructions/update_record.rs
  src/program/src/token2022/initialize_metadata.rs
  src/program/src/token2022/initialize_member.rs

The `state` module (Record / Class checks and unchecked mutators) and the
`utils` module (ByteReader, Context, write_bytes, UNINIT_BYTE) are part of
this repository but are not in the excerpt; definitions for them below are
marked `Modelled from the spec:` and follow spec.md sections 4.1, 4.2, 4.4
and 6.

Machine integers are modelled as `Nat` bytes (each < 256 where it matters)
and `Int` for the signed 64-bit expiry. Fallible Rust code returns
`Except ProgramError`; a Rust panic (out-of-bounds slice) is modelled as
`Option.none` around the result.
-/

/-- A 32-byte public key, modelled as a list of bytes. -/
abbrev Pubkey := List Nat

/-- Error taxonomy of the program (pinocchio `ProgramError` variants used by
the excerpt, plus the program's custom Unauthorized error). -/
inductive ProgramError where
  | NotEnoughAccountKeys
  | MissingRequiredSignature
  | InvalidArgument
  | InvalidAccountData
  | InvalidInstructionData
  | InvalidAccountOwner
  | Unauthorized
deriving DecidableEq, Repr

/-- An account as seen by one instruction: its address, signer flag, the
program that owns its storage cell, its lamport balance and its data bytes. -/
structure AccountInfo where
  key : Pubkey
  isSigner : Bool
  ownerProgram : Pubkey
  lamports : Nat
  data : List Nat
deriving DecidableEq, Repr

/-- The `Context` handed to each instruction: raw account list plus raw
instruction bytes (utils::Context). -/
structure Context where
  accounts : List AccountInfo
  data : List Nat
deriving DecidableEq, Repr

/-- Modelled from the spec: the registry program's own id (a fixed 32-byte
constant; the concrete value is irrelevant, only identity comparisons use it). -/
def PROGRAM_ID : Pubkey := List.replicate 32 7

/-- Modelled from the spec: the fixed discriminator tag of a live Record. -/
def RECORD_DISCRIMINATOR : Nat := 2

/-- Modelled from the spec: record header layout is discriminator (1 byte at
offset 0), owner key (32 bytes at offset 1), class key (32 bytes at
CLASS_OFFSET), is_frozen flag (1 byte), expiry (8 bytes, signed LE). -/
def CLASS_OFFSET : Nat := 33

/-- Modelled from the spec: offset of the is_frozen flag inside record data. -/
def IS_FROZEN_RECORD_OFFSET : Nat := 65

/-- Modelled from the spec: offset of the 8-byte expiry field inside record data. -/
def EXPIRY_OFFSET : Nat := 66

/-- Modelled from the spec: total fixed-header length of a record cell. -/
def RECORD_HEADER_LEN : Nat := 74

/-- Modelled from the spec: offset of the authority key inside class data
(readable at a fixed offset without full deserialization). -/
def CLASS_AUTHORITY_OFFSET : Nat := 1

/-- Tombstone cell content: exactly 1 byte, value 0xFF (spec section 6). -/
def TOMBSTONE : List Nat := [0xFF]

/-- Modelled from the spec: the class authority field, read at its fixed
offset from the class account's data. -/
def Class.authorityBytes (cls : AccountInfo) : Pubkey :=
  (cls.data.drop CLASS_AUTHORITY_OFFSET).take 32

/-- Modelled from the spec: `check_authority(class, caller)` succeeds iff
`caller == class.authority` and `caller.is_signer`; failure is an
Unauthorized permission error or a missing-signature error (spec 4.2). -/
def Class.check_authority (cls caller : AccountInfo) : Except ProgramError Unit :=
  if caller.key ≠ Class.authorityBytes cls then .error .Unauthorized
  else if ¬ caller.isSigner then .error .MissingRequiredSignature
  else .ok ()

/-- Modelled from the spec: the record's owner key read from its header. -/
def Record.ownerBytes (record : AccountInfo) : Pubkey :=
  (record.data.drop 1).take 32

/-- Whether the record cell is in tombstoned form: exactly 1 byte = 0xFF. -/
def Record.isTombstone (record : AccountInfo) : Bool :=
  record.data = TOMBSTONE

/-- Modelled from the spec: `check_program_id_and_discriminator(record)`
verifies the cell is owned by this registry's storage domain and carries the
expected discriminator (with the fixed header present) before any
offset-based field read (spec 4.2). -/
def Record.check_program_id_and_discriminator (record : AccountInfo) :
    Except ProgramError Unit :=
  if record.ownerProgram ≠ PROGRAM_ID then .error .InvalidAccountOwner
  else if record.data.length < RECORD_HEADER_LEN then .error .InvalidAccountData
  else if record.data.head? ≠ some RECORD_DISCRIMINATOR then .error .InvalidAccountData
  else .ok ()

/-- Modelled from the spec: `check_owner_or_delegate_or_deleted(record,
maybe_delegate, caller, maybe_last_account)` succeeds iff the record is
already tombstoned (idempotent delete), or its discriminator/domain are valid
and the caller is a signer who is the record's owner or matches the supplied
delegate account; otherwise it fails with a missing-signature or
Unauthorized error (spec 4.2). The trailing `maybe_last_account` is accepted
for call-shape fidelity with delete_record.rs line 42. -/
def Record.check_owner_or_delegate_or_deleted (record : AccountInfo)
    (maybeDelegate : Option AccountInfo) (caller : AccountInfo)
    (_maybeLast : Option AccountInfo) : Except ProgramError Unit :=
  if Record.isTombstone record then .ok ()
  else
    match Record.check_program_id_and_discriminator record with
    | .error e => .error e
    | .ok () =>
      if ¬ caller.isSigner then .error .MissingRequiredSignature
      else if caller.key = Record.ownerBytes record then .ok ()
      else
        match maybeDelegate with
        | some d => if caller.key = d.key then .ok () else .error .Unauthorized
        | none => .error .Unauthorized

/-- DeleteRecordAccounts::try_from (delete_record.rs lines 36-49): requires at
least 3 accounts `[authority, payer, record, rest @ ..]`, then runs the
owner/delegate/deleted check with `rest.first()` and `rest.last()`. -/
def DeleteRecordAccounts.tryFrom (accounts : List AccountInfo) :
    Except ProgramError (AccountInfo × AccountInfo × AccountInfo) :=
  match accounts with
  | _authority :: payer :: record :: rest =>
    match Record.check_owner_or_delegate_or_deleted record rest.head? _authority
        rest.getLast? with
    | .error e => .error e
    | .ok () => .ok (_authority, payer, record)
  | _ => .error .NotEnoughAccountKeys

/-- FreezeRecordAccounts::try_from (freeze_record.rs lines 28-45): requires
exactly 3 accounts `[authority, record, class]`; checks class authority, the
record's program id / discriminator, and that the class key equals the 32
bytes at CLASS_OFFSET in the record's data. -/
def FreezeRecordAccounts.tryFrom (accounts : List AccountInfo) :
    Except ProgramError AccountInfo :=
  match accounts with
  | [authority, record, cls] =>
    match Class.check_authority cls authority with
    | .error e => .error e
    | .ok () =>
      match Record.check_program_id_and_discriminator record with
      | .error e => .error e
      | .ok () =>
        if cls.key ≠ (record.data.drop CLASS_OFFSET).take 32 then
          .error .InvalidAccountData
        else .ok record
  | _ => .error .NotEnoughAccountKeys

/-- UpdateRecordAccounts::try_from (update_record.rs lines 33-55): requires
exactly 5 accounts `[authority, payer, record, class, system_program]`;
checks the authority signer flag, class authority, the record's program id /
discriminator, and the class key at CLASS_OFFSET. -/
def UpdateRecordAccounts.tryFrom (accounts : List AccountInfo) :
    Except ProgramError (AccountInfo × AccountInfo) :=
  match accounts with
  | [authority, payer, record, cls, _system_program] =>
    if ¬ authority.isSigner then .error .MissingRequiredSignature
    else
      match Class.check_authority cls authority with
      | .error e => .error e
      | .ok () =>
        match Record.check_program_id_and_discriminator record with
        | .error e => .error e
        | .ok () =>
          if cls.key ≠ (record.data.drop CLASS_OFFSET).take 32 then
            .error .InvalidAccountData
          else .ok (payer, record)
  | _ => .error .NotEnoughAccountKeys

/-- Src constant (freeze_record.rs line 48): offset of is_frozen in the
freeze instruction data. -/
def IS_FROZEN_OFFSET : Nat := 0

/-- Src constant (freeze_record.rs line 56): minimum freeze instruction data
length, one byte. -/
def FREEZE_RECORD_MIN_IX_LENGTH : Nat := 1

/-- Modelled from the spec: ByteReader bool read at an offset (utils module
not in the excerpt). A bool is one byte, 0x00 or 0x01 (spec 6); a buffer too
short for the field is an argument-size error (spec 4.1), any other byte a
data error. -/
def ByteReader.read_bool_with_offset (data : List Nat) (offset : Nat) :
    Except ProgramError Bool :=
  match data.drop offset with
  | [] => .error .InvalidArgument
  | b :: _ =>
    if b = 0 then .ok false
    else if b = 1 then .ok true
    else .error .InvalidInstructionData

/-- Modelled from the spec: ByteReader string read consuming all remaining
bytes of the instruction buffer; the payload is opaque bytes (spec 4.1, 6). -/
def ByteReader.read_str_remaining (data : List Nat) : Except ProgramError (List Nat) :=
  .ok data

/-- Little-endian byte list to natural number. -/
def leBytesToNat : List Nat → Nat
  | [] => 0
  | b :: bs => b % 256 + 256 * leBytesToNat bs

/-- i64::from_le_bytes over the first 8 bytes: two's-complement signed value. -/
def i64_from_le_bytes (bs : List Nat) : Int :=
  let u := leBytesToNat bs
  if u < 2 ^ 63 then (u : Int) else (u : Int) - 2 ^ 64

/-- Little-endian encoding of a natural number into `k` bytes. -/
def natToLeBytes : Nat → Nat → List Nat
  | 0, _ => []
  | k + 1, n => (n % 256) :: natToLeBytes k (n / 256)

/-- i64::to_le_bytes: two's-complement little-endian encoding into 8 bytes. -/
def i64_to_le_bytes (x : Int) : List Nat :=
  natToLeBytes 8 ((x % (2 : Int) ^ 64).toNat)

/-- Validated state of a FreezeRecord call: the record account and the
decoded flag (freeze_record.rs lines 50-53). -/
structure FreezeRecord where
  record : AccountInfo
  is_frozen : Bool

/-- FreezeRecord::try_from (freeze_record.rs lines 58-79), non-perf build:
account validation, then the minimum-length check returning InvalidArgument,
then the bool decode at offset 0. -/
def FreezeRecord.tryFrom (ctx : Context) : Except ProgramError FreezeRecord :=
  match FreezeRecordAccounts.tryFrom ctx.accounts with
  | .error e => .error e
  | .ok record =>
    if ctx.data.length < FREEZE_RECORD_MIN_IX_LENGTH then .error .InvalidArgument
    else
      match ByteReader.read_bool_with_offset ctx.data IS_FROZEN_OFFSET with
      | .error e => .error e
      | .ok b => .ok ⟨record, b⟩

/-- Validated state of an UpdateRecordData call (update_record.rs lines 58-61). -/
structure UpdateRecordData where
  payer : AccountInfo
  record : AccountInfo
  data : List Nat

/-- UpdateRecordData::try_from (update_record.rs lines 63-78): account
validation, then the payload is all remaining instruction bytes. -/
def UpdateRecordData.tryFrom (ctx : Context) : Except ProgramError UpdateRecordData :=
  match UpdateRecordAccounts.tryFrom ctx.accounts with
  | .error e => .error e
  | .ok (payer, record) =>
    match ByteReader.read_str_remaining ctx.data with
    | .error e => .error e
    | .ok s => .ok ⟨payer, record, s⟩

/-- Validated state of an UpdateRecordExpiry call (update_record.rs lines 95-98). -/
structure UpdateRecordExpiry where
  payer : AccountInfo
  record : AccountInfo
  expiry : Int

/-- UpdateRecordExpiry::try_from (update_record.rs lines 100-118), non-perf
build: account validation, the minimum-length check returning
InvalidArgument, then i64::from_le_bytes over data[0..8]. -/
def UpdateRecordExpiry.tryFrom (ctx : Context) : Except ProgramError UpdateRecordExpiry :=
  match UpdateRecordAccounts.tryFrom ctx.accounts with
  | .error e => .error e
  | .ok (payer, record) =>
    if ctx.data.length < 8 then .error .InvalidArgument
    else .ok ⟨payer, record, i64_from_le_bytes (ctx.data.take 8)⟩

/-- UpdateRecordExpiry::try_from under the perf feature (update_record.rs
lines 107-114 with the cfg-gated length check compiled out): the slice
expression `ctx.data[0..8]` panics when fewer than 8 bytes are present;
`none` models the panic/abort. -/
def UpdateRecordExpiry.tryFromPerf (ctx : Context) :
    Option (Except ProgramError UpdateRecordExpiry) :=
  match UpdateRecordAccounts.tryFrom ctx.accounts with
  | .error e => some (.error e)
  | .ok (payer, record) =>
    if 8 ≤ ctx.data.length then
      some (.ok ⟨payer, record, i64_from_le_bytes (ctx.data.take 8)⟩)
    else none

/-- Modelled from the spec: Record::update_is_frozen_unchecked writes the
is_frozen flag at its fixed offset in the record data; no other field is
touched (spec 4.3). -/
def Record.update_is_frozen_unchecked (data : List Nat) (is_frozen : Bool) :
    List Nat :=
  data.set IS_FROZEN_RECORD_OFFSET (if is_frozen then 1 else 0)

/-- Modelled from the spec: Record::update_expiry_unchecked overwrites the
8-byte expiry field in place, no resize (spec 4.3). -/
def Record.update_expiry_unchecked (data : List Nat) (expiry : Int) : List Nat :=
  data.take EXPIRY_OFFSET ++ i64_to_le_bytes expiry ++ data.drop (EXPIRY_OFFSET + 8)

/-- Modelled from the spec: per-byte storage funding rate used by resize
(the concrete rate is irrelevant to the claims, only the direction of fund
movement matters, spec 4.4). -/
def RENT_PER_BYTE : Nat := 7

/-- Modelled from the spec: Record::update_data_unchecked replaces the
payload after the fixed header, resizes the cell, and moves the funding
delta between payer and cell (grow: payer funds cell; shrink: cell refunds
payer) (spec 4.3, 4.4). Returns (record, payer) after the mutation. -/
def Record.update_data_unchecked (record payer : AccountInfo) (s : List Nat) :
    AccountInfo × AccountInfo :=
  let newData := record.data.take RECORD_HEADER_LEN ++ s
  let oldRent := RENT_PER_BYTE * record.data.length
  let newRent := RENT_PER_BYTE * newData.length
  if oldRent ≤ newRent then
    ({ record with data := newData, lamports := record.lamports + (newRent - oldRent) },
     { payer with lamports := payer.lamports - (newRent - oldRent) })
  else
    ({ record with data := newData, lamports := record.lamports - (oldRent - newRent) },
     { payer with lamports := payer.lamports + (oldRent - newRent) })

/-- Closing an account: lamports drained, data removed. -/
def closeAccount (a : AccountInfo) : AccountInfo :=
  { a with lamports := 0, data := [] }

/-- Modelled from the spec: Record::delete_record_unchecked shrinks the
record cell to the 1-byte 0xFF tombstone, transfers all residual funds of
the cell (and of the delegate's backing cell, when one exists, which is then
closed) to the payer (spec 4.3, 4.4; delete_record.rs doc comment). Returns
(record, payer, delegate cell) after the mutation. -/
def Record.delete_record_unchecked (record payer : AccountInfo)
    (delegateCell : Option AccountInfo) :
    AccountInfo × AccountInfo × Option AccountInfo :=
  match delegateCell with
  | none =>
    ({ record with data := TOMBSTONE, lamports := 0 },
     { payer with lamports := payer.lamports + record.lamports }, none)
  | some d =>
    ({ record with data := TOMBSTONE, lamports := 0 },
     { payer with lamports := payer.lamports + record.lamports + d.lamports },
     some (closeAccount d))

/-- Replace the element at index `i` of a list by applying `f`; identity when
out of range. -/
def modifyAt (l : List AccountInfo) (i : Nat) (f : AccountInfo → AccountInfo) :
    List AccountInfo :=
  match l, i with
  | [], _ => []
  | a :: as_, 0 => f a :: as_
  | a :: as_, j + 1 => a :: modifyAt as_ j f

/-- DeleteRecord::process (delete_record.rs lines 68-82): validation through
try_from, then execute, which runs delete_record_unchecked on the record and
payer (with the trailing delegate cell when present). The final account list
is returned next to the result; on error nothing is touched. -/
def DeleteRecord.process (ctx : Context) :
    Except ProgramError Unit × List AccountInfo :=
  match DeleteRecordAccounts.tryFrom ctx.accounts with
  | .error e => (.error e, ctx.accounts)
  | .ok _ =>
    match ctx.accounts with
    | _authority :: payer :: record :: rest =>
      let res := Record.delete_record_unchecked record payer rest.head?
      (.ok (), _authority :: res.2.1 :: res.1 ::
        (match res.2.2, rest with
         | some d1, _ :: rtail => d1 :: rtail
         | _, _ => rest))
    | _ => (.error .NotEnoughAccountKeys, ctx.accounts)

/-- FreezeRecord::process (freeze_record.rs lines 82-97): validation and
decode through try_from, then execute, which writes the is_frozen flag into
the record account (index 1 of the freeze account list). -/
def FreezeRecord.process (ctx : Context) :
    Except ProgramError Unit × List AccountInfo :=
  match FreezeRecord.tryFrom ctx with
  | .error e => (.error e, ctx.accounts)
  | .ok st =>
    (.ok (), modifyAt ctx.accounts 1 (fun a =>
      { a with data := Record.update_is_frozen_unchecked a.data st.is_frozen }))

/-- UpdateRecordData::process (update_record.rs lines 81-93): validation and
decode through try_from, then execute, which runs update_data_unchecked on
the record (index 2) and payer (index 1). -/
def UpdateRecordData.process (ctx : Context) :
    Except ProgramError Unit × List AccountInfo :=
  match UpdateRecordData.tryFrom ctx with
  | .error e => (.error e, ctx.accounts)
  | .ok st =>
    match ctx.accounts with
    | authority :: payer :: record :: rest =>
      let res := Record.update_data_unchecked record payer st.data
      (.ok (), authority :: res.2 :: res.1 :: rest)
    | _ => (.error .NotEnoughAccountKeys, ctx.accounts)

/-- UpdateRecordExpiry::process (update_record.rs lines 121-132): validation
and decode through try_from, then execute, which writes the expiry field in
the record account (index 2). -/
def UpdateRecordExpiry.process (ctx : Context) :
    Except ProgramError Unit × List AccountInfo :=
  match UpdateRecordExpiry.tryFrom ctx with
  | .error e => (.error e, ctx.accounts)
  | .ok st =>
    (.ok (), modifyAt ctx.accounts 2 (fun a =>
      { a with data := Record.update_expiry_unchecked a.data st.expiry }))

/-- Modelled from the spec: utils::write_bytes over a MaybeUninit buffer,
writing source bytes one by one into the destination, stopping at the end of
the destination (spec 4.1: written byte-by-byte into a fixed-capacity
uninitialized buffer). `none` entries are uninitialized bytes. -/
def write_bytes : List (Option Nat) → List Nat → List (Option Nat)
  | dst, [] => dst
  | [], _ => []
  | _ :: ds, s :: ss => some s :: write_bytes ds ss

/-- Write source bytes into the buffer starting at `off` (the Rust call
`write_bytes(&mut buf[off..], src)`). -/
def write_bytes_at (dst : List (Option Nat)) (off : Nat) (src : List Nat) :
    List (Option Nat) :=
  dst.take off ++ write_bytes (dst.drop off) src

/-- Read out a buffer region in which every byte must have been written;
`none` if any byte read is uninitialized. -/
def readInit : List (Option Nat) → Option (List Nat)
  | [] => some []
  | none :: _ => none
  | some b :: rest =>
    match readInit rest with
    | some bs => some (b :: bs)
    | none => none

/-- Src constant (initialize_metadata.rs line 46): the 8-byte discriminator. -/
def INITIALIZE_METADATA_DISCRIMINATOR : List Nat :=
  [0xd2, 0xe1, 0x1e, 0xa2, 0x58, 0xb8, 0x4d, 0x8d]

/-- Src constant (initialize_member.rs line 45): the 8-byte discriminator. -/
def INITIALIZE_MEMBER_DISCRIMINATOR : List Nat :=
  [0x98, 0x20, 0xde, 0xb0, 0xdf, 0xed, 0x74, 0x86]

/-- InitializeMetadata::invoke_signed instruction-data assembly
(initialize_metadata.rs lines 62-78): a 2000-byte uninitialized buffer, the
discriminator written at offset 0, the metadata bytes at offset 8, and the
first `8 + metadata_data.len()` bytes interpreted as the wire payload.
`none` models a read of an uninitialized or out-of-bounds byte. -/
def InitializeMetadata.instructionData (metadata_data : List Nat) :
    Option (List Nat) :=
  let buf0 := List.replicate 2000 (none : Option Nat)
  let buf1 := write_bytes_at buf0 0 INITIALIZE_METADATA_DISCRIMINATOR
  let buf2 := write_bytes_at buf1 8 metadata_data
  let size := INITIALIZE_METADATA_DISCRIMINATOR.length + metadata_data.length
  if size ≤ buf2.length then readInit (buf2.take size) else none

/-- InitializeMember::invoke_signed instruction-data assembly
(initialize_member.rs lines 58-68): an 8-byte uninitialized buffer, the
discriminator written at offset 0, and the whole buffer interpreted as the
wire payload. -/
def InitializeMember.instructionData : Option (List Nat) :=
  let buf0 := List.replicate 8 (none : Option Nat)
  let buf1 := write_bytes_at buf0 0 INITIALIZE_MEMBER_DISCRIMINATOR
  readInit buf1

/-- Test fixture: a class authority key. -/
def authKey : Pubkey := List.replicate 32 5

/-- Test fixture: a record owner key. -/
def ownerKey : Pubkey := List.replicate 32 9

/-- Test fixture: a class account key. -/
def classKey : Pubkey := List.replicate 32 3

/-- Test fixture: a well-formed live record cell content under `classKey`,
owned by `ownerKey`, not frozen, expiry 0, no payload. -/
def testRecordData : List Nat :=
  RECORD_DISCRIMINATOR :: (ownerKey ++ classKey ++ [0] ++ List.replicate 8 0)

/-- Test fixture: the record account holding `testRecordData`. -/
def testRecord : AccountInfo :=
  ⟨List.replicate 32 11, false, PROGRAM_ID, 1000, testRecordData⟩

/-- Test fixture: the class account whose stored authority is `authKey`. -/
def testClass : AccountInfo :=
  ⟨classKey, false, PROGRAM_ID, 500, 1 :: authKey⟩

/-- Test fixture: the class authority as a signing caller. -/
def testAuthority : AccountInfo := ⟨authKey, true, PROGRAM_ID, 10, []⟩

/-- Test fixture: the record owner as a signing caller. -/
def testOwner : AccountInfo := ⟨ownerKey, true, PROGRAM_ID, 10, []⟩

/-- Test fixture: a payer account. -/
def testPayer : AccountInfo := ⟨List.replicate 32 13, false, PROGRAM_ID, 50, []⟩

/-- Test fixture: the system program account slot. -/
def testSystemProgram : AccountInfo := ⟨List.replicate 32 0, false, PROGRAM_ID, 0, []⟩

theorem Class.check_authority_ok_iff (cls caller : AccountInfo) :
    Class.check_authority cls caller = .ok () ↔
      (caller.key = Class.authorityBytes cls ∧ caller.isSigner = true) := by
  unfold Class.check_authority
  split
  · next h => simp [h]
  · next h =>
    split
    · next hs => simp at h; simp [h, hs]
    · next hs => simp at h hs; simp [h, hs]

theorem Class.check_authority_unauthorized (cls caller : AccountInfo)
    (h : caller.key ≠ Class.authorityBytes cls) :
    Class.check_authority cls caller = .error .Unauthorized := by
  unfold Class.check_authority
  simp [h]

theorem Class.check_authority_missing_signature (cls caller : AccountInfo)
    (h1 : caller.key = Class.authorityBytes cls) (h2 : caller.isSigner = false) :
    Class.check_authority cls caller = .error .MissingRequiredSignature := by
  unfold Class.check_authority
  simp [h1, h2]

theorem Class.check_authority_ne_nek (cls caller : AccountInfo) :
    Class.check_authority cls caller ≠ .error .NotEnoughAccountKeys := by
  unfold Class.check_authority
  split
  · simp
  · split <;> simp

theorem Record.check_pid_ne_nek (r : AccountInfo) :
    Record.check_program_id_and_discriminator r ≠ .error .NotEnoughAccountKeys := by
  unfold Record.check_program_id_and_discriminator
  split
  · simp
  · split
    · simp
    · split <;> simp

theorem Record.check_odd_ne_nek (record caller : AccountInfo)
    (md ml : Option AccountInfo) :
    Record.check_owner_or_delegate_or_deleted record md caller ml ≠
      .error .NotEnoughAccountKeys := by
  unfold Record.check_owner_or_delegate_or_deleted
  split
  · simp
  · split
    · next e heq => intro h; cases h; exact Record.check_pid_ne_nek record heq
    · split
      · simp
      · split
        · simp
        · split
          · split <;> simp
          · simp

theorem ByteReader.read_bool_ne_nek (data : List Nat) (off : Nat) :
    ByteReader.read_bool_with_offset data off ≠ .error .NotEnoughAccountKeys := by
  unfold ByteReader.read_bool_with_offset
  split
  · simp
  · split
    · simp
    · split <;> simp

theorem FreezeRecordAccounts.tryFrom_three_ne_nek (a r c : AccountInfo) :
    FreezeRecordAccounts.tryFrom [a, r, c] ≠ .error .NotEnoughAccountKeys := by
  rcases hca : Class.check_authority c a with e | u
  · have he : e ≠ .NotEnoughAccountKeys := fun h => Class.check_authority_ne_nek c a (h ▸ hca)
    simp [FreezeRecordAccounts.tryFrom, hca, he]
  · cases u
    rcases hpid : Record.check_program_id_and_discriminator r with e | u
    · have he : e ≠ .NotEnoughAccountKeys := fun h => Record.check_pid_ne_nek r (h ▸ hpid)
      simp [FreezeRecordAccounts.tryFrom, hca, hpid, he]
    · cases u
      by_cases hk : c.key = (r.data.drop CLASS_OFFSET).take 32
      · simp [FreezeRecordAccounts.tryFrom, hca, hpid, hk]
      · simp [FreezeRecordAccounts.tryFrom, hca, hpid, hk]

theorem UpdateRecordAccounts.tryFrom_five_ne_nek (a p r c s : AccountInfo) :
    UpdateRecordAccounts.tryFrom [a, p, r, c, s] ≠ .error .NotEnoughAccountKeys := by
  by_cases hsig : a.isSigner
  · rcases hca : Class.check_authority c a with e | u
    · have he : e ≠ .NotEnoughAccountKeys := fun h => Class.check_authority_ne_nek c a (h ▸ hca)
      simp [UpdateRecordAccounts.tryFrom, hsig, hca, he]
    · cases u
      rcases hpid : Record.check_program_id_and_discriminator r with e | u
      · have he : e ≠ .NotEnoughAccountKeys := fun h => Record.check_pid_ne_nek r (h ▸ hpid)
        simp [UpdateRecordAccounts.tryFrom, hsig, hca, hpid, he]
      · cases u
        by_cases hk : c.key = (r.data.drop CLASS_OFFSET).take 32
        · simp [UpdateRecordAccounts.tryFrom, hsig, hca, hpid, hk]
        · simp [UpdateRecordAccounts.tryFrom, hsig, hca, hpid, hk]
  · simp [UpdateRecordAccounts.tryFrom, hsig]

theorem DeleteRecordAccounts.tryFrom_cons_ne_nek (a p r : AccountInfo)
    (rest : List AccountInfo) :
    DeleteRecordAccounts.tryFrom (a :: p :: r :: rest) ≠
      .error .NotEnoughAccountKeys := by
  rcases hodd : Record.check_owner_or_delegate_or_deleted r rest.head? a rest.getLast?
      with e | u
  · have he : e ≠ .NotEnoughAccountKeys :=
      fun h => Record.check_odd_ne_nek r a rest.head? rest.getLast? (h ▸ hodd)
    simp [DeleteRecordAccounts.tryFrom, hodd, he]
  · cases u
    simp [DeleteRecordAccounts.tryFrom, hodd]

/-- C9: freeze/unfreeze rejects any account list whose length is not exactly
3, and update-data/update-expiry (through their shared account validation)
reject any list whose length is not exactly 5, both with
NotEnoughAccountKeys — longer lists fail just like shorter ones — whereas
delete accepts any list of 3 or more accounts (returning
NotEnoughAccountKeys exactly when fewer than 3 are supplied) and treats the
remainder as trailing optional accounts. -/
theorem account_list_arity_validation :
    (∀ accounts : List AccountInfo,
      FreezeRecordAccounts.tryFrom accounts = .error .NotEnoughAccountKeys ↔
        accounts.length ≠ 3) ∧
    (∀ accounts : List AccountInfo,
      UpdateRecordAccounts.tryFrom accounts = .error .NotEnoughAccountKeys ↔
        accounts.length ≠ 5) ∧
    (∀ accounts : List AccountInfo,
      DeleteRecordAccounts.tryFrom accounts = .error .NotEnoughAccountKeys ↔
        accounts.length < 3) := by
  refine ⟨?_, ?_, ?_⟩
  · intro accounts
    match accounts with
    | [] => simp [FreezeRecordAccounts.tryFrom]
    | [a] => simp [FreezeRecordAccounts.tryFrom]
    | [a, b] => simp [FreezeRecordAccounts.tryFrom]
    | [a, b, c] => simpa using FreezeRecordAccounts.tryFrom_three_ne_nek a b c
    | a :: b :: c :: d :: rest => simp [FreezeRecordAccounts.tryFrom]
  · intro accounts
    match accounts with
    | [] => simp [UpdateRecordAccounts.tryFrom]
    | [a] => simp [UpdateRecordAccounts.tryFrom]
    | [a, b] => simp [UpdateRecordAccounts.tryFrom]
    | [a, b, c] => simp [UpdateRecordAccounts.tryFrom]
    | [a, b, c, d] => simp [UpdateRecordAccounts.tryFrom]
    | [a, b, c, d, e] => simpa using UpdateRecordAccounts.tryFrom_five_ne_nek a b c d e
    | a :: b :: c :: d :: e :: f :: rest => simp [UpdateRecordAccounts.tryFrom]
  · intro accounts
    match accounts with
    | [] => simp [DeleteRecordAccounts.tryFrom]
    | [a] => simp [DeleteRecordAccounts.tryFrom]
    | [a, b] => simp [DeleteRecordAccounts.tryFrom]
    | a :: b :: c :: rest =>
      refine iff_of_false (DeleteRecordAccounts.tryFrom_cons_ne_nek a b c rest) ?_
      simp only [List.length_cons]
      omega

/-- C2: for each of the four operations, if validation or instruction-data
decoding fails, the operation returns that error and the account state is
exactly the input state: all fallible steps complete before any mutation. -/
theorem no_mutation_on_validation_failure :
    (∀ (ctx : Context) (e : ProgramError),
      (DeleteRecord.process ctx).fst = .error e →
        (DeleteRecord.process ctx).snd = ctx.accounts) ∧
    (∀ (ctx : Context) (e : ProgramError),
      (FreezeRecord.process ctx).fst = .error e →
        (FreezeRecord.process ctx).snd = ctx.accounts) ∧
    (∀ (ctx : Context) (e : ProgramError),
      (UpdateRecordData.process ctx).fst = .error e →
        (UpdateRecordData.process ctx).snd = ctx.accounts) ∧
    (∀ (ctx : Context) (e : ProgramError),
      (UpdateRecordExpiry.process ctx).fst = .error e →
        (UpdateRecordExpiry.process ctx).snd = ctx.accounts) := by
  refine ⟨?_, ?_, ?_, ?_⟩ <;> intro ctx e h
  · rcases hacc : ctx.accounts with _ | ⟨a, _ | ⟨p, _ | ⟨r, rest⟩⟩⟩
    · simp [DeleteRecord.process, hacc, DeleteRecordAccounts.tryFrom]
    · simp [DeleteRecord.process, hacc, DeleteRecordAccounts.tryFrom]
    · simp [DeleteRecord.process, hacc, DeleteRecordAccounts.tryFrom]
    · rcases htf : DeleteRecordAccounts.tryFrom (a :: p :: r :: rest) with e' | t
      · simp [DeleteRecord.process, hacc, htf]
      · exfalso
        simp [DeleteRecord.process, hacc, htf] at h
  · rcases htf : FreezeRecord.tryFrom ctx with e' | st
    · simp [FreezeRecord.process, htf]
    · simp [FreezeRecord.process, htf] at h
  · rcases htf : UpdateRecordData.tryFrom ctx with e' | st
    · simp [UpdateRecordData.process, htf]
    · rcases hacc : ctx.accounts with _ | ⟨a, _ | ⟨p, _ | ⟨r, rest⟩⟩⟩
      · exfalso
        simp only [UpdateRecordData.tryFrom] at htf
        rw [hacc] at htf
        simp [UpdateRecordAccounts.tryFrom] at htf
      · exfalso
        simp only [UpdateRecordData.tryFrom] at htf
        rw [hacc] at htf
        simp [UpdateRecordAccounts.tryFrom] at htf
      · exfalso
        simp only [UpdateRecordData.tryFrom] at htf
        rw [hacc] at htf
        simp [UpdateRecordAccounts.tryFrom] at htf
      · exfalso
        simp [UpdateRecordData.process, hacc, htf] at h
  · rcases htf : UpdateRecordExpiry.tryFrom ctx with e' | st
    · simp [UpdateRecordExpiry.process, htf]
    · simp [UpdateRecordExpiry.process, htf] at h

/-- Witness for C2: the empty account list fails validation for all four
operations and each operation leaves the (empty) account state untouched. -/
theorem no_mutation_on_validation_failure_witness :
    (DeleteRecord.process ⟨[], []⟩).snd = [] ∧
    (FreezeRecord.process ⟨[], []⟩).snd = [] ∧
    (UpdateRecordData.process ⟨[], []⟩).snd = [] ∧
    (UpdateRecordExpiry.process ⟨[], []⟩).snd = [] :=
  ⟨no_mutation_on_validation_failure.1 ⟨[], []⟩ .NotEnoughAccountKeys rfl,
   no_mutation_on_validation_failure.2.1 ⟨[], []⟩ .NotEnoughAccountKeys rfl,
   no_mutation_on_validation_failure.2.2.1 ⟨[], []⟩ .NotEnoughAccountKeys rfl,
   no_mutation_on_validation_failure.2.2.2 ⟨[], []⟩ .NotEnoughAccountKeys rfl⟩

theorem Record.check_odd_ok_iff (record caller : AccountInfo)
    (md ml : Option AccountInfo) :
    Record.check_owner_or_delegate_or_deleted record md caller ml = .ok () ↔
      (Record.isTombstone record = true ∨
        (Record.check_program_id_and_discriminator record = .ok () ∧
         caller.isSigner = true ∧
         (caller.key = Record.ownerBytes record ∨
           ∃ d, md = some d ∧ caller.key = d.key))) := by
  unfold Record.check_owner_or_delegate_or_deleted
  split
  · next h => simp [h]
  · next h =>
    simp only [Bool.not_eq_true] at h
    rcases hpid : Record.check_program_id_and_discriminator record with e | u
    · simp [h, hpid]
    · cases u
      by_cases hs : caller.isSigner
      · by_cases ho : caller.key = Record.ownerBytes record
        · simp [h, hpid, hs, ho]
        · rcases md with _ | d
          · simp [h, hpid, hs, ho]
          · by_cases hd : caller.key = d.key
            · simp [h, hpid, hs, ho, hd]
            · simp [h, hpid, hs, ho, hd]
      · simp only [Bool.not_eq_true] at hs
        simp [h, hpid, hs]

theorem Record.check_odd_unauthorized (record caller : AccountInfo)
    (md ml : Option AccountInfo)
    (ht : Record.isTombstone record = false)
    (hpid : Record.check_program_id_and_discriminator record = .ok ())
    (hs : caller.isSigner = true)
    (ho : caller.key ≠ Record.ownerBytes record)
    (hd : ∀ d, md = some d → caller.key ≠ d.key) :
    Record.check_owner_or_delegate_or_deleted record md caller ml =
      .error .Unauthorized := by
  unfold Record.check_owner_or_delegate_or_deleted
  rcases md with _ | d
  · simp [ht, hpid, hs, ho]
  · simp [ht, hpid, hs, ho, hd d rfl]

/-- C1: for every account list, DeleteRecord's validation succeeds exactly
when the record is already tombstoned, or the record's discriminator and
storage domain are valid and the caller (first account) is a signer who is
the record's owner or the supplied delegate; in particular a signing caller
(such as a class authority) that is neither owner nor delegate of a live
record is rejected with the Unauthorized error. -/
theorem delete_validation_owner_delegate_or_tombstoned :
    (∀ (a p r : AccountInfo) (rest : List AccountInfo),
      (DeleteRecordAccounts.tryFrom (a :: p :: r :: rest)).isOk = true ↔
        (Record.isTombstone r = true ∨
          (Record.check_program_id_and_discriminator r = .ok () ∧
           a.isSigner = true ∧
           (a.key = Record.ownerBytes r ∨
             ∃ d, rest.head? = some d ∧ a.key = d.key)))) ∧
    (∀ (a p r : AccountInfo) (rest : List AccountInfo),
      Record.isTombstone r = false →
      Record.check_program_id_and_discriminator r = .ok () →
      a.isSigner = true →
      a.key ≠ Record.ownerBytes r →
      (∀ d, rest.head? = some d → a.key ≠ d.key) →
      DeleteRecordAccounts.tryFrom (a :: p :: r :: rest) =
        .error .Unauthorized) := by
  constructor
  · intro a p r rest
    rw [← Record.check_odd_ok_iff r a rest.head? rest.getLast?]
    rcases hodd : Record.check_owner_or_delegate_or_deleted r rest.head? a
        rest.getLast? with e | u
    · simp [DeleteRecordAccounts.tryFrom, hodd, Except.isOk, Except.toBool]
    · cases u
      simp [DeleteRecordAccounts.tryFrom, hodd, Except.isOk, Except.toBool]
  · intro a p r rest h1 h2 h3 h4 h5
    have hodd := Record.check_odd_unauthorized r a rest.head? rest.getLast?
      h1 h2 h3 h4 h5
    simp [DeleteRecordAccounts.tryFrom, hodd]

/-- Witness for C1: the signing class authority, neither owner nor delegate
of the live test record, is rejected with Unauthorized by DeleteRecord's
validation. -/
theorem delete_validation_owner_delegate_or_tombstoned_witness :
    DeleteRecordAccounts.tryFrom [testAuthority, testPayer, testRecord] =
      .error .Unauthorized :=
  delete_validation_owner_delegate_or_tombstoned.2 testAuthority testPayer
    testRecord [] (by decide) rfl rfl (by decide)
    (fun d hd => Option.noConfusion hd)

/-- C3: the class-gated validations (freeze/unfreeze and the shared account
validation of update-data and update-expiry) succeed only when the authority
account's key equals the class account's stored authority and the authority
carries the signer flag; a signing caller whose key differs from the class
authority (for example the record owner) fails with Unauthorized, and a
non-signing class authority fails with the missing-signature error. -/
theorem class_gated_validation_requires_authority_signer :
    (∀ a r c : AccountInfo,
      (FreezeRecordAccounts.tryFrom [a, r, c]).isOk = true →
        a.key = Class.authorityBytes c ∧ a.isSigner = true) ∧
    (∀ a p r c s : AccountInfo,
      (UpdateRecordAccounts.tryFrom [a, p, r, c, s]).isOk = true →
        a.key = Class.authorityBytes c ∧ a.isSigner = true) ∧
    (∀ a r c : AccountInfo, a.isSigner = true →
      a.key ≠ Class.authorityBytes c →
        FreezeRecordAccounts.tryFrom [a, r, c] = .error .Unauthorized) ∧
    (∀ a p r c s : AccountInfo, a.isSigner = true →
      a.key ≠ Class.authorityBytes c →
        UpdateRecordAccounts.tryFrom [a, p, r, c, s] = .error .Unauthorized) ∧
    (∀ a r c : AccountInfo, a.key = Class.authorityBytes c →
      a.isSigner = false →
        FreezeRecordAccounts.tryFrom [a, r, c] =
          .error .MissingRequiredSignature) ∧
    (∀ a p r c s : AccountInfo, a.isSigner = false →
        UpdateRecordAccounts.tryFrom [a, p, r, c, s] =
          .error .MissingRequiredSignature) := by
  refine ⟨?_, ?_, ?_, ?_, ?_, ?_⟩
  · intro a r c h
    rcases hca : Class.check_authority c a with e | u
    · simp [FreezeRecordAccounts.tryFrom, hca, Except.isOk, Except.toBool] at h
    · cases u
      exact (Class.check_authority_ok_iff c a).mp hca
  · intro a p r c s h
    by_cases hsig : a.isSigner
    · rcases hca : Class.check_authority c a with e | u
      · simp [UpdateRecordAccounts.tryFrom, hsig, hca, Except.isOk,
          Except.toBool] at h
      · cases u
        exact (Class.check_authority_ok_iff c a).mp hca
    · simp only [Bool.not_eq_true] at hsig
      simp [UpdateRecordAccounts.tryFrom, hsig, Except.isOk, Except.toBool] at h
  · intro a r c _ hkey
    simp [FreezeRecordAccounts.tryFrom, Class.check_authority_unauthorized c a hkey]
  · intro a p r c s hsig hkey
    simp [UpdateRecordAccounts.tryFrom, hsig,
      Class.check_authority_unauthorized c a hkey]
  · intro a r c hkey hsig
    simp [FreezeRecordAccounts.tryFrom,
      Class.check_authority_missing_signature c a hkey hsig]
  · intro a p r c s hsig
    simp [UpdateRecordAccounts.tryFrom, hsig]

/-- Witness for C3: the signing record owner, who is not the class
authority, is rejected with Unauthorized by the freeze validation. -/
theorem class_gated_validation_requires_authority_signer_witness :
    FreezeRecordAccounts.tryFrom [testOwner, testRecord, testClass] =
      .error .Unauthorized :=
  class_gated_validation_requires_authority_signer.2.2.1 testOwner testRecord
    testClass rfl (by decide)

theorem Record.check_pid_congr (r r' : AccountInfo)
    (h1 : r.ownerProgram = r'.ownerProgram)
    (h2 : r.data.length = r'.data.length)
    (h3 : r.data.head? = r'.data.head?) :
    Record.check_program_id_and_discriminator r =
      Record.check_program_id_and_discriminator r' := by
  unfold Record.check_program_id_and_discriminator
  rw [h1, h2, h3]

/-- Test fixture: a record cell whose stored class reference is `ownerKey`
rather than `classKey` (otherwise well-formed). -/
def testRecordWrongClass : AccountInfo :=
  ⟨List.replicate 32 11, false, PROGRAM_ID, 1000,
    RECORD_DISCRIMINATOR :: (ownerKey ++ ownerKey ++ [0] ++ List.replicate 8 0)⟩

/-- C5: for freeze/unfreeze and the shared update account validation, once
the class-authority check passes, a record whose 32 bytes at CLASS_OFFSET
differ from the class account's key is rejected with the malformed-data
error InvalidAccountData; a wrong storage domain or wrong discriminator is
rejected with the malformed-data error produced by the record check
(InvalidAccountOwner / InvalidAccountData); and the validation outcome
depends on the record's data only through its domain, length, discriminator
byte and the 32 bytes at CLASS_OFFSET — the record is never fully decoded. -/
theorem class_reference_fixed_offset_check :
    (∀ a r c : AccountInfo, Class.check_authority c a = .ok () →
      Record.check_program_id_and_discriminator r = .ok () →
      c.key ≠ (r.data.drop CLASS_OFFSET).take 32 →
        FreezeRecordAccounts.tryFrom [a, r, c] = .error .InvalidAccountData) ∧
    (∀ a p r c s : AccountInfo, Class.check_authority c a = .ok () →
      Record.check_program_id_and_discriminator r = .ok () →
      c.key ≠ (r.data.drop CLASS_OFFSET).take 32 →
        UpdateRecordAccounts.tryFrom [a, p, r, c, s] =
          .error .InvalidAccountData) ∧
    (∀ (a r c : AccountInfo) (e : ProgramError),
      Class.check_authority c a = .ok () →
      Record.check_program_id_and_discriminator r = .error e →
        FreezeRecordAccounts.tryFrom [a, r, c] = .error e) ∧
    (∀ (a p r c s : AccountInfo) (e : ProgramError),
      Class.check_authority c a = .ok () →
      Record.check_program_id_and_discriminator r = .error e →
        UpdateRecordAccounts.tryFrom [a, p, r, c, s] = .error e) ∧
    (∀ r : AccountInfo, r.ownerProgram ≠ PROGRAM_ID →
      Record.check_program_id_and_discriminator r = .error .InvalidAccountOwner) ∧
    (∀ r : AccountInfo, r.ownerProgram = PROGRAM_ID →
      RECORD_HEADER_LEN ≤ r.data.length →
      r.data.head? ≠ some RECORD_DISCRIMINATOR →
        Record.check_program_id_and_discriminator r = .error .InvalidAccountData) ∧
    (∀ a r r' c : AccountInfo,
      r.ownerProgram = r'.ownerProgram →
      r.data.length = r'.data.length →
      r.data.head? = r'.data.head? →
      (r.data.drop CLASS_OFFSET).take 32 = (r'.data.drop CLASS_OFFSET).take 32 →
        (FreezeRecordAccounts.tryFrom [a, r, c]).isOk =
          (FreezeRecordAccounts.tryFrom [a, r', c]).isOk) := by
  refine ⟨?_, ?_, ?_, ?_, ?_, ?_, ?_⟩
  · intro a r c hca hpid hk
    simp [FreezeRecordAccounts.tryFrom, hca, hpid, hk]
  · intro a p r c s hca hpid hk
    have hsig := ((Class.check_authority_ok_iff c a).mp hca).2
    simp [UpdateRecordAccounts.tryFrom, hsig, hca, hpid, hk]
  · intro a r c e hca hpid
    simp [FreezeRecordAccounts.tryFrom, hca, hpid]
  · intro a p r c s e hca hpid
    have hsig := ((Class.check_authority_ok_iff c a).mp hca).2
    simp [UpdateRecordAccounts.tryFrom, hsig, hca, hpid]
  · intro r h
    unfold Record.check_program_id_and_discriminator
    simp [h]
  · intro r h1 h2 h3
    have h2' : ¬ (r.data.length < RECORD_HEADER_LEN) := by omega
    unfold Record.check_program_id_and_discriminator
    simp [h1, h2', h3]
  · intro a r r' c h1 h2 h3 h4
    have hpid := Record.check_pid_congr r r' h1 h2 h3
    rcases hca : Class.check_authority c a with e | u
    · simp [FreezeRecordAccounts.tryFrom, hca]
    · cases u
      rcases hp : Record.check_program_id_and_discriminator r' with e | u
      · rw [hp] at hpid
        simp [FreezeRecordAccounts.tryFrom, hca, hp, hpid]
      · cases u
        rw [hp] at hpid
        by_cases hk : c.key = (r'.data.drop CLASS_OFFSET).take 32
        · have hk' : c.key = (r.data.drop CLASS_OFFSET).take 32 := by rw [h4]; exact hk
          simp [FreezeRecordAccounts.tryFrom, hca, hp, hpid, hk, hk', h4,
            Except.isOk, Except.toBool]
        · have hk' : ¬ c.key = (r.data.drop CLASS_OFFSET).take 32 := by rw [h4]; exact hk
          simp [FreezeRecordAccounts.tryFrom, hca, hp, hpid, hk, hk', h4,
            Except.isOk, Except.toBool]

/-- Witness for C5: a record carrying a foreign class reference at
CLASS_OFFSET is rejected with InvalidAccountData by the freeze validation. -/
theorem class_reference_fixed_offset_check_witness :
    FreezeRecordAccounts.tryFrom
        [testAuthority, testRecordWrongClass, testClass] =
      .error .InvalidAccountData :=
  class_reference_fixed_offset_check.1 testAuthority testRecordWrongClass
    testClass rfl rfl (by decide)

/-- C4: a successful DeleteRecord shrinks the record cell (third account) to
the 1-byte 0xFF tombstone with zero lamports and credits all its residual
funds to the payer (second account); when a trailing delegate cell exists it
is closed and its funds are credited to the payer as well. -/
theorem delete_tombstone_and_refund (a p r : AccountInfo)
    (rest : List AccountInfo) (bytes : List Nat)
    (hok : (DeleteRecord.process ⟨a :: p :: r :: rest, bytes⟩).fst = .ok ()) :
    (rest = [] →
      (DeleteRecord.process ⟨a :: p :: r :: rest, bytes⟩).snd =
        [a, { p with lamports := p.lamports + r.lamports },
         { r with data := TOMBSTONE, lamports := 0 }]) ∧
    (∀ (dc : AccountInfo) (rtail : List AccountInfo), rest = dc :: rtail →
      (DeleteRecord.process ⟨a :: p :: r :: rest, bytes⟩).snd =
        a :: { p with lamports := p.lamports + r.lamports + dc.lamports } ::
          { r with data := TOMBSTONE, lamports := 0 } ::
          closeAccount dc :: rtail) := by
  rcases htf : DeleteRecordAccounts.tryFrom (a :: p :: r :: rest) with e | t
  · exfalso
    simp [DeleteRecord.process, htf] at hok
  · constructor
    · intro hrest
      subst hrest
      simp [DeleteRecord.process, htf, Record.delete_record_unchecked]
    · intro dc rtail hrest
      subst hrest
      simp [DeleteRecord.process, htf, Record.delete_record_unchecked,
        closeAccount]

/-- Witness for C4: deleting the live test record by its owner tombstones
the cell and moves its 1000 lamports to the payer. -/
theorem delete_tombstone_and_refund_witness :
    (DeleteRecord.process ⟨[testOwner, testPayer, testRecord], []⟩).snd =
      [testOwner, { testPayer with lamports := testPayer.lamports + testRecord.lamports },
       { testRecord with data := TOMBSTONE, lamports := 0 }] :=
  (delete_tombstone_and_refund testOwner testPayer testRecord [] [] rfl).1 rfl

theorem natToLeBytes_length (k n : Nat) : (natToLeBytes k n).length = k := by
  induction k generalizing n with
  | zero => rfl
  | succ k ih => simp [natToLeBytes, ih]

theorem i64_to_le_bytes_length (x : Int) : (i64_to_le_bytes x).length = 8 := by
  simp [i64_to_le_bytes, natToLeBytes_length]

/-- C6: update-expiry requires at least 8 bytes of instruction data
(InvalidArgument otherwise, in the non-perf build), decodes bytes 0..8 as a
signed little-endian 64-bit timestamp, and the expiry write overwrites
exactly the 8-byte expiry field in place, leaving the cell size and every
byte outside the field unchanged. -/
theorem update_expiry_min_length_decode_and_write (ctx : Context)
    (p r : AccountInfo)
    (hacc : UpdateRecordAccounts.tryFrom ctx.accounts = .ok (p, r)) :
    (ctx.data.length < 8 →
      UpdateRecordExpiry.tryFrom ctx = .error .InvalidArgument) ∧
    (8 ≤ ctx.data.length →
      UpdateRecordExpiry.tryFrom ctx =
        .ok ⟨p, r, i64_from_le_bytes (ctx.data.take 8)⟩) ∧
    (∀ (data : List Nat) (expiry : Int), RECORD_HEADER_LEN ≤ data.length →
      (Record.update_expiry_unchecked data expiry).length = data.length ∧
      (∀ i : Nat, i < EXPIRY_OFFSET ∨ EXPIRY_OFFSET + 8 ≤ i →
        (Record.update_expiry_unchecked data expiry)[i]? = data[i]?) ∧
      ((Record.update_expiry_unchecked data expiry).drop EXPIRY_OFFSET).take 8 =
        i64_to_le_bytes expiry) := by
  refine ⟨?_, ?_, ?_⟩
  · intro hlen
    simp [UpdateRecordExpiry.tryFrom, hacc, hlen]
  · intro hlen
    have hnl : ¬ (ctx.data.length < 8) := by omega
    simp [UpdateRecordExpiry.tryFrom, hacc, hnl]
  · intro data expiry hlen
    simp only [RECORD_HEADER_LEN] at hlen
    have henc : (i64_to_le_bytes expiry).length = 8 := i64_to_le_bytes_length expiry
    have hlen66 : (data.take (66 : Nat)).length = 66 := by
      rw [List.length_take]
      omega
    refine ⟨?_, ?_, ?_⟩
    · simp only [Record.update_expiry_unchecked, EXPIRY_OFFSET,
        List.length_append, hlen66, henc, List.length_drop]
      omega
    · intro i hi
      simp only [EXPIRY_OFFSET] at hi
      simp only [Record.update_expiry_unchecked, EXPIRY_OFFSET,
        List.getElem?_append, List.length_append, hlen66, henc]
      rcases hi with hi | hi
      · rw [if_pos (by omega), if_pos (by omega), List.getElem?_take,
          if_pos (by omega)]
      · rw [if_neg (by omega), List.getElem?_drop]
        congr 1
        omega
    · simp only [Record.update_expiry_unchecked, EXPIRY_OFFSET,
        List.append_assoc]
      rw [List.drop_left' hlen66, List.take_left' henc]

/-- Witness for C6: with valid accounts and the 8-byte little-endian
payload for 1, update-expiry validation succeeds and decodes expiry 1. -/
theorem update_expiry_min_length_decode_and_write_witness :
    UpdateRecordExpiry.tryFrom
        ⟨[testAuthority, testPayer, testRecord, testClass, testSystemProgram],
         [1, 0, 0, 0, 0, 0, 0, 0]⟩ =
      .ok ⟨testPayer, testRecord,
        i64_from_le_bytes ([1, 0, 0, 0, 0, 0, 0, 0].take 8)⟩ :=
  (update_expiry_min_length_decode_and_write
      ⟨[testAuthority, testPayer, testRecord, testClass, testSystemProgram],
       [1, 0, 0, 0, 0, 0, 0, 0]⟩
      testPayer testRecord rfl).2.1 (by decide)

/-- C7: in the non-perf build, freeze/unfreeze instruction data shorter than
1 byte fails with InvalidArgument before any mutation; with at least one
byte, byte 0 (0x00/0x01) is decoded as the is_frozen flag, and the flag
write changes only the byte at the is_frozen offset, leaving every other
byte and the cell size unchanged. -/
theorem freeze_min_length_decode_and_frame (ctx : Context) (r : AccountInfo)
    (hacc : FreezeRecordAccounts.tryFrom ctx.accounts = .ok r) :
    (ctx.data.length < 1 → FreezeRecord.tryFrom ctx = .error .InvalidArgument) ∧
    (∀ (b : Nat) (tail : List Nat), ctx.data = b :: tail → b ≤ 1 →
      FreezeRecord.tryFrom ctx = .ok ⟨r, b == 1⟩) ∧
    (∀ (data : List Nat) (b : Bool),
      (Record.update_is_frozen_unchecked data b).length = data.length ∧
      (∀ i : Nat, i ≠ IS_FROZEN_RECORD_OFFSET →
        (Record.update_is_frozen_unchecked data b)[i]? = data[i]?) ∧
      (IS_FROZEN_RECORD_OFFSET < data.length →
        (Record.update_is_frozen_unchecked data b)[IS_FROZEN_RECORD_OFFSET]? =
          some (if b then 1 else 0))) := by
  refine ⟨?_, ?_, ?_⟩
  · intro hlen
    simp [FreezeRecord.tryFrom, hacc, FREEZE_RECORD_MIN_IX_LENGTH, hlen]
  · intro b tail hdata hb
    have hlen : ¬ (ctx.data.length < FREEZE_RECORD_MIN_IX_LENGTH) := by
      rw [hdata]
      simp [FREEZE_RECORD_MIN_IX_LENGTH]
    rcases b with _ | _ | b
    · simp only [FreezeRecord.tryFrom, hacc, hdata,
        ByteReader.read_bool_with_offset, IS_FROZEN_OFFSET, List.drop_zero]
      rw [if_neg (by rw [hdata] at hlen; exact hlen)]
      simp
    · simp only [FreezeRecord.tryFrom, hacc, hdata,
        ByteReader.read_bool_with_offset, IS_FROZEN_OFFSET, List.drop_zero]
      rw [if_neg (by rw [hdata] at hlen; exact hlen)]
      simp
    · omega
  · intro data b
    refine ⟨?_, ?_, ?_⟩
    · simp [Record.update_is_frozen_unchecked, List.length_set]
    · intro i hi
      exact List.getElem?_set_ne (Ne.symm hi)
    · intro hlt
      simp [Record.update_is_frozen_unchecked, List.getElem?_set_self hlt]

/-- Witness for C7: with valid freeze accounts and the 1-byte payload 0x01,
the freeze call decodes is_frozen = true. -/
theorem freeze_min_length_decode_and_frame_witness :
    FreezeRecord.tryFrom ⟨[testAuthority, testRecord, testClass], [1]⟩ =
      .ok ⟨testRecord, 1 == 1⟩ :=
  (freeze_min_length_decode_and_frame
      ⟨[testAuthority, testRecord, testClass], [1]⟩ testRecord rfl).2.1
    1 [] rfl (by decide)

/-- C10: under the perf build feature the update-expiry length guard is
compiled out; with fewer than 8 bytes of instruction data (and accounts that
validate) the slice `ctx.data[0..8]` is an out-of-bounds access, modelled as
`none` (panic/abort), not the typed InvalidArgument error that the non-perf
build returns on the same input. -/
theorem update_expiry_perf_skips_length_check (ctx : Context)
    (p r : AccountInfo)
    (hacc : UpdateRecordAccounts.tryFrom ctx.accounts = .ok (p, r))
    (hlen : ctx.data.length < 8) :
    UpdateRecordExpiry.tryFromPerf ctx = none ∧
    UpdateRecordExpiry.tryFrom ctx = .error .InvalidArgument := by
  constructor
  · have hn : ¬ (8 ≤ ctx.data.length) := by omega
    simp [UpdateRecordExpiry.tryFromPerf, hacc, hn]
  · simp [UpdateRecordExpiry.tryFrom, hacc, hlen]

/-- Witness for C10: valid update accounts with empty instruction data make
the perf build panic (none) where the non-perf build returns
InvalidArgument. -/
theorem update_expiry_perf_skips_length_check_witness :
    UpdateRecordExpiry.tryFromPerf
        ⟨[testAuthority, testPayer, testRecord, testClass, testSystemProgram],
         []⟩ = none ∧
    UpdateRecordExpiry.tryFrom
        ⟨[testAuthority, testPayer, testRecord, testClass, testSystemProgram],
         []⟩ = .error .InvalidArgument :=
  update_expiry_perf_skips_length_check
    ⟨[testAuthority, testPayer, testRecord, testClass, testSystemProgram], []⟩
    testPayer testRecord rfl (by decide)

theorem write_bytes_replicate_none (src : List Nat) (n : Nat)
    (h : src.length ≤ n) :
    write_bytes (List.replicate n (none : Option Nat)) src =
      src.map some ++ List.replicate (n - src.length) (none : Option Nat) := by
  induction src generalizing n with
  | nil => simp [write_bytes]
  | cons b bs ih =>
    rcases n with _ | m
    · simp at h
    · simp only [List.replicate_succ, write_bytes, List.map_cons,
        List.cons_append, List.length_cons]
      rw [ih m (by simpa using h), Nat.succ_sub_succ]

theorem readInit_map_some (l : List Nat) : readInit (l.map some) = some l := by
  induction l with
  | nil => rfl
  | cons b bs ih => simp [readInit, ih]

/-- C8: the token-extension builders interpret only the written prefix of
their fixed-capacity buffers as instruction data: under the precondition
metadata_data.len() <= 1992, InitializeMetadata's payload is exactly the
8-byte discriminator followed by metadata_data (every byte read was
written), and InitializeMember's payload is exactly its 8-byte
discriminator. -/
theorem token2022_payload_exact (metadata_data : List Nat)
    (h : metadata_data.length ≤ 1992) :
    InitializeMetadata.instructionData metadata_data =
      some (INITIALIZE_METADATA_DISCRIMINATOR ++ metadata_data) ∧
    InitializeMember.instructionData = some INITIALIZE_MEMBER_DISCRIMINATOR := by
  constructor
  · have hdm : (INITIALIZE_METADATA_DISCRIMINATOR.map
        (some : Nat → Option Nat)).length = 8 := rfl
    have e1 : write_bytes (List.replicate 2000 (none : Option Nat))
        INITIALIZE_METADATA_DISCRIMINATOR =
        INITIALIZE_METADATA_DISCRIMINATOR.map some ++
          List.replicate 1992 (none : Option Nat) := by
      rw [write_bytes_replicate_none INITIALIZE_METADATA_DISCRIMINATOR 2000
        (by decide)]
      rfl
    have e2 : write_bytes (List.replicate 1992 (none : Option Nat))
        metadata_data =
        metadata_data.map some ++
          List.replicate (1992 - metadata_data.length) (none : Option Nat) :=
      write_bytes_replicate_none metadata_data 1992 h
    have hlen2 : ((INITIALIZE_METADATA_DISCRIMINATOR.map
        (some : Nat → Option Nat)) ++
        (metadata_data.map some ++
          List.replicate (1992 - metadata_data.length)
            (none : Option Nat))).length = 2000 := by
      simp only [List.length_append, List.length_map, List.length_replicate]
      have h8 : INITIALIZE_METADATA_DISCRIMINATOR.length = 8 := rfl
      omega
    simp only [InitializeMetadata.instructionData, write_bytes_at,
      List.take_zero, List.drop_zero, List.nil_append, e1]
    rw [List.take_left' hdm, List.drop_left' hdm, e2, hlen2]
    rw [if_pos (by
      have h8 : INITIALIZE_METADATA_DISCRIMINATOR.length = 8 := rfl
      omega)]
    rw [← List.append_assoc,
      List.take_left' (by simp only [List.length_append, List.length_map]),
      ← List.map_append, readInit_map_some]
  · rfl

/-- Witness for C8: a 3-byte metadata payload yields the discriminator plus
the payload, and the member payload is its discriminator alone. -/
theorem token2022_payload_exact_witness :
    InitializeMetadata.instructionData [9, 9, 9] =
      some (INITIALIZE_METADATA_DISCRIMINATOR ++ [9, 9, 9]) ∧
    InitializeMember.instructionData = some INITIALIZE_MEMBER_DISCRIMINATOR :=
  token2022_payload_exact [9, 9, 9] (by decide)
